import Mathlib

/-!
Verification of the blaziken B2 client's large-file upload core.

Shallow embedding of the multipart-upload orchestrator of the `blaziken`
library (files `blaziken/utils.py`, `blaziken/api.py`).  Remote HTTP calls
are modelled by an environment (`Env`) that fixes the outcome of every call
the orchestrator can make; driving an upload then yields a deterministic
trace of actions (network calls, file-handle opens and closes), yielded
progress events, and a final outcome (normal completion or a raised error).

The embedding assumes an authenticated client (`_ensure_auth` passing),
which is the precondition of every scenario treated here.
-/

namespace Blaziken

/-- Constant from `blaziken/constants.py`: `ONE_MB = 1024 ** 2`. -/
def ONE_MB : Nat := 1024 ^ 2

/-- Constant from `blaziken/constants.py`: `ONE_GB = 1024 * ONE_MB`. -/
def ONE_GB : Nat := 1024 * ONE_MB

/-- Constant from `blaziken/constants.py`: `FIVE_MB = 5 * ONE_MB`. -/
def FIVE_MB : Nat := 5 * ONE_MB

/-- Constant from `blaziken/constants.py`: `HUNDRED_MB = 100 * ONE_MB`. -/
def HUNDRED_MB : Nat := 100 * ONE_MB

/-- Constant from `blaziken/constants.py`: `FIVE_GB = 5 * ONE_GB`. -/
def FIVE_GB : Nat := 5 * ONE_GB

/-- The exceptions the upload code can raise or observe.  `requestError`,
`responseError` and `internetError` are the `blaziken.exceptions` classes
(all subclasses of `BlazeError`); `valueError` is Python's built-in
`ValueError` (not a `BlazeError`); `osError` stands for the `OSError`
raised by a failing `Path(...).stat()`. -/
inductive B2Error where
  | valueError (msg : String)
  | requestError (msg : String)
  | responseError (msg : String)
  | internetError (msg : String)
  | osError (msg : String)
deriving DecidableEq, Repr

/-- Whether `except (BlazeError, RequestError)` in `upload_large_file`
(api.py:778) catches this exception: all `BlazeError` subclasses are
caught, Python built-ins `ValueError` / `OSError` are not. -/
def B2Error.catchable : B2Error → Bool
  | .valueError _ => false
  | .osError _ => false
  | _ => true

/-- The `file_path_or_size` argument of `upload_parts_count` (utils.py:86):
either an `int` size, or a filesystem path whose `stat().st_size` is the
given value (`none` when `stat` would raise). -/
inductive SizeSource where
  | literal (n : Nat)
  | path (statSize : Option Nat)
deriving DecidableEq, Repr

/-- utils.py:99-100: resolve `file_path_or_size` to a byte count, either
directly or via `Path(...).stat().st_size`. -/
def resolve_size : SizeSource → Except B2Error Nat
  | .literal n => .ok n
  | .path (some n) => .ok n
  | .path none => .error (.osError "stat failed")

/-- Fuel-driven binary logarithm (the fuel makes the recursion structural,
so the kernel can evaluate it). -/
def log2Aux : Nat → Nat → Nat
  | 0, _ => 0
  | fuel + 1, n => if n < 2 then 0 else log2Aux fuel (n / 2) + 1

/-- Floor of the base-2 logarithm of `n` (0 for `n = 0`). -/
def natLog2 (n : Nat) : Nat := log2Aux n n

/-- Round-to-nearest, ties-to-even of the rational `N / D` (for `D > 0`):
the integer nearest to `N / D`, with ties broken towards the even
integer.  This is the rounding IEEE-754 prescribes for division. -/
def roundHalfEvenDiv (N D : Nat) : Nat :=
  if 2 * (N % D) < D then N / D
  else if D < 2 * (N % D) then N / D + 1
  else if (N / D) % 2 = 0 then N / D else N / D + 1

/-- CPython's `int / int` true division into an IEEE-754 binary64 double,
for `0 < b ≤ a` (quotient at least 1): the correctly rounded value of
`a / b` is `m * 2 ^ (e - 52)` (as an exact rational) where `(m, e)` is the
returned pair, `e` is the floor base-2 logarithm of the quotient and `m`
the 53-bit significand rounded half-to-even on the grid `2 ^ (e - 52)`.
The exponent is unbounded: overflow to infinity would need a quotient of
at least `2 ^ 1024`, far beyond any input treated here. -/
def floatDivSig (a b : Nat) : Nat × Nat :=
  if natLog2 (a / b) ≤ 52 then
    (roundHalfEvenDiv (a * 2 ^ (52 - natLog2 (a / b))) b, natLog2 (a / b))
  else (roundHalfEvenDiv a (b * 2 ^ (natLog2 (a / b) - 52)), natLog2 (a / b))

/-- Python's `ceil(size / part_size)` (utils.py:101): `/` is float true
division — the exact rational `a / b` correctly rounded to a binary64
double — and `math.ceil` is exact on the resulting double.  For
`0 < a < b` the rounded double lies in `(0, 1]` (the quotient is far above
the smallest positive double and at most 1 after rounding), so the ceiling
is 1; for `a ≥ b` the double is `m * 2 ^ (e - 52)` from `floatDivSig` and
its ceiling is computed exactly.  This rounding makes the result differ
from the exact ceiling of `a / b` for some huge sizes. -/
def pyCeilDiv (a b : Nat) : Nat :=
  if a = 0 then 0
  else if a < b then 1
  else if (floatDivSig a b).2 ≤ 52 then
    ((floatDivSig a b).1 + 2 ^ (52 - (floatDivSig a b).2) - 1) /
      2 ^ (52 - (floatDivSig a b).2)
  else (floatDivSig a b).1 * 2 ^ ((floatDivSig a b).2 - 52)

/-- Function `upload_parts_count` (utils.py:86-102): validates the configured part
size against `[FIVE_MB, FIVE_GB]` before touching the size argument, then
returns `(size, ceil(size / part_size), part_size)` where
`ceil(size / part_size)` is Python's float-based computation `pyCeilDiv`. -/
def upload_parts_count (file_path_or_size : SizeSource) (part_size : Nat) :
    Except B2Error (Nat × Nat × Nat) :=
  if part_size < FIVE_MB ∨ FIVE_GB < part_size then
    .error (.valueError "Part size cannot be less than 5MB or more than 5GB")
  else
    match resolve_size file_path_or_size with
    | .error e => .error e
    | .ok size => .ok (size, pyCeilDiv size part_size, part_size)

/-- Initialisation in `BackBlazeB2.__init__` (api.py:126): `self._part_size = HUNDRED_MB`. -/
def init_part_size : Nat := HUNDRED_MB

/-- Method `BackBlazeB2.set_part_size` (api.py:242-251) as a transition on the
stored `_part_size`: returns the new stored value together with the raised
error, if any.  The `raise` precedes the assignment, so on error the stored
value is unchanged. -/
def set_part_size (part_size_state : Nat) (size : Nat) : Nat × Option B2Error :=
  if size < FIVE_MB ∨ FIVE_GB < size then
    (part_size_state, some (.valueError "Part size cannot be less than 5MB or more than 5GB"))
  else (size, none)

/-- The network calls the upload code can make.  Arguments irrelevant to the
claims (bucket ids, file names, tokens, URLs) are omitted; `uploadPart`
records the 1-based part number and the number of bytes read from the
source for that part, `finishLargeFile` records the SHA-1 list passed. -/
inductive Call where
  | startLargeFile
  | getUploadPartUrl (fileId : String)
  | uploadPart (partNumber : Nat) (dataLen : Nat)
  | finishLargeFile (fileId : String) (shas : List String)
  | cancelLargeFile (fileId : String)
  | getUploadUrl
  | uploadFile (dataLen : Nat)
deriving DecidableEq, Repr

/-- The response slot of a yielded tuple: a part-upload response (carrying
its SHA-1), a `finish_large_file` response, or a single-shot `upload_file`
response. -/
inductive Resp where
  | part (sha : String)
  | finished
  | singleFile
deriving DecidableEq, Repr

/-- One yielded 3-tuple `(response, part number, total part count)`
(api.py:776-777, api.py:238). -/
structure Event where
  resp : Resp
  partNumber : Nat
  totalParts : Nat
deriving DecidableEq, Repr

/-- An observable action of a driven upload: a network call, or the
orchestrator opening / closing its file handle. -/
inductive Action where
  | net (c : Call)
  | openHandle
  | closeHandle
deriving DecidableEq, Repr

/-- The full observable behaviour of driving one upload to its end:
the ordered actions, the yielded events, and `none` for normal completion
or `some e` for the exception that propagates to the caller. -/
structure Trace where
  actions : List Action
  events : List Event
  outcome : Option B2Error
deriving DecidableEq, Repr

/-- Environment fixing the outcome of every remote call: the `fileId` from
`start_large_file`, the token from `get_upload_part_url` and the
`contentSha1` from `upload_part` per part number, the outcomes of
`finish_large_file` (per SHA-1 list), `cancel_large_file`,
`get_upload_url` and single-shot `upload_file`. -/
structure Env where
  startResult : Except B2Error String
  partUrlResult : Nat → Except B2Error String
  uploadPartResult : Nat → Except B2Error String
  finishResult : List String → Except B2Error Unit
  cancelResult : Except B2Error Unit
  uploadUrlResult : Except B2Error String
  uploadFileResult : Except B2Error Unit

/-- Result of the part loop of `upload_large_file` (api.py:770-776):
calls made, events yielded, accumulated SHA-1 list, and the error the loop
raised, if any. -/
structure LoopResult where
  calls : List Call
  events : List Event
  shas : List String
  err : Option B2Error
deriving DecidableEq, Repr

/-- The 1-based part numbers `i + 1` for `i in range(parts_count)`. -/
def partNumbers (partsCount : Nat) : List Nat :=
  (List.range partsCount).map (· + 1)

/-- The `for i in range(parts_count)` loop of api.py:770-776.  For each part
number: `get_upload_part_url`, then `file_handle.read(parts_size)` (which
returns `min parts_size remaining` bytes), then `upload_part`; on success
the SHA-1 is appended and the event is yielded, on failure the loop stops
with that error. -/
def partLoop (env : Env) (fileId : String) (partsCount partsSize : Nat) :
    List Nat → Nat → List String → LoopResult
  | [], _, shas => { calls := [], events := [], shas := shas, err := none }
  | n :: rest, remaining, shas =>
    match env.partUrlResult n with
    | .error e => { calls := [.getUploadPartUrl fileId], events := [], shas := shas, err := some e }
    | .ok _ =>
      let dataLen := min partsSize remaining
      match env.uploadPartResult n with
      | .error e =>
        { calls := [.getUploadPartUrl fileId, .uploadPart n dataLen], events := [],
          shas := shas, err := some e }
      | .ok sha =>
        let r := partLoop env fileId partsCount partsSize rest (remaining - dataLen) (shas ++ [sha])
        { calls := .getUploadPartUrl fileId :: .uploadPart n dataLen :: r.calls,
          events := ⟨.part sha, n, partsCount⟩ :: r.events, shas := r.shas, err := r.err }

/-- Body of `upload_large_file` after the `is_path` / `file_size`
resolution (api.py:763-783): plan the parts, `start_large_file`, open the
handle when given a path, run the part loop, then `finish_large_file`; on a
caught error, `cancel_large_file(file_id)` and re-raise — but an exception
raised by the cancel call itself replaces the original one (Python
semantics of an exception escaping an `except` block); the `finally` block
closes the handle iff it was opened from a path. -/
def upload_large_gen (env : Env) (path_or_size : SizeSource) (contentSize : Nat)
    (is_path : Bool) (cfg_part_size : Nat) : Trace :=
  match upload_parts_count path_or_size cfg_part_size with
  | .error e => { actions := [], events := [], outcome := some e }
  | .ok (_, partsCount, partsSize) =>
    match env.startResult with
    | .error e => { actions := [Action.net Call.startLargeFile], events := [], outcome := some e }
    | .ok fid =>
      let r := partLoop env fid partsCount partsSize (partNumbers partsCount) contentSize []
      let tail : List Call × List Event × Option B2Error :=
        match r.err with
        | some e =>
          if e.catchable then
            match env.cancelResult with
            | .ok _ => ([Call.cancelLargeFile fid], [], some e)
            | .error e2 => ([Call.cancelLargeFile fid], [], some e2)
          else ([], [], some e)
        | none =>
          match env.finishResult r.shas with
          | .ok _ =>
            ([Call.finishLargeFile fid r.shas], [⟨Resp.finished, 0, partsCount⟩], none)
          | .error e =>
            if e.catchable then
              match env.cancelResult with
              | .ok _ => ([Call.finishLargeFile fid r.shas, Call.cancelLargeFile fid], [], some e)
              | .error e2 =>
                ([Call.finishLargeFile fid r.shas, Call.cancelLargeFile fid], [], some e2)
            else ([Call.finishLargeFile fid r.shas], [], some e)
      { actions := Action.net Call.startLargeFile ::
          ((if is_path then [Action.openHandle] else []) ++
            (r.calls ++ tail.1).map Action.net ++
            (if is_path then [Action.closeHandle] else [])),
        events := r.events ++ tail.2.1,
        outcome := tail.2.2 }

/-- The source argument of `upload_large_file` / `upload`: a filesystem
path whose file holds `size` bytes, or an already-open stream holding
`size` bytes. -/
inductive FileSource where
  | path (size : Nat)
  | stream (size : Nat)
deriving DecidableEq, Repr

/-- Generator `BackBlazeB2.upload_large_file` (api.py:741-783), driven to the end by
its caller.  A path source is planned via `stat`; a stream source requires
`file_size` to be nonzero (api.py:759-760, `ValueError` otherwise, before
any network call) and is planned from `file_size`. -/
def upload_large_file (env : Env) (file_or_path : FileSource) (file_size : Nat)
    (cfg_part_size : Nat) : Trace :=
  match file_or_path with
  | .path sz => upload_large_gen env (.path (some sz)) sz true cfg_part_size
  | .stream sz =>
    if file_size = 0 then
      { actions := [], events := [],
        outcome := some (.valueError "You must specify the file size when uploading an opened file") }
    else upload_large_gen env (.literal file_size) sz false cfg_part_size

/-- Dispatcher `BackBlazeB2.upload_path` (api.py:785-814): plan from the path's size;
if `parts_count == 1` make one `get_upload_url` call, read the whole file
(a `with open` block: one open, one close) and perform the single-shot
upload, yielding one `(response, 0, 1)` event (api.py:228-238); in every
other case delegate to `upload_large_file`. -/
def upload_path (env : Env) (size : Nat) (cfg_part_size : Nat) : Trace :=
  match upload_parts_count (.path (some size)) cfg_part_size with
  | .error e => { actions := [], events := [], outcome := some e }
  | .ok (_, partsCount, _) =>
    if partsCount = 1 then
      match env.uploadUrlResult with
      | .error e => { actions := [Action.net Call.getUploadUrl], events := [], outcome := some e }
      | .ok _ =>
        match env.uploadFileResult with
        | .error e =>
          { actions := [Action.net Call.getUploadUrl, Action.openHandle, Action.closeHandle,
              Action.net (Call.uploadFile size)], events := [], outcome := some e }
        | .ok _ =>
          { actions := [Action.net Call.getUploadUrl, Action.openHandle, Action.closeHandle,
              Action.net (Call.uploadFile size)],
            events := [⟨Resp.singleFile, 0, 1⟩], outcome := none }
    else upload_large_file env (.path size) 0 cfg_part_size

/-- Dispatcher `BackBlazeB2.upload_io` (api.py:816-840): plan from the caller-supplied
`file_size`; if `parts_count == 1` do the single-shot path (the handle is
the caller's, so no open/close), else delegate to `upload_large_file`. -/
def upload_io (env : Env) (streamSize : Nat) (file_size : Nat) (cfg_part_size : Nat) : Trace :=
  match upload_parts_count (.literal file_size) cfg_part_size with
  | .error e => { actions := [], events := [], outcome := some e }
  | .ok (_, partsCount, _) =>
    if partsCount = 1 then
      match env.uploadUrlResult with
      | .error e => { actions := [Action.net Call.getUploadUrl], events := [], outcome := some e }
      | .ok _ =>
        match env.uploadFileResult with
        | .error e =>
          { actions := [Action.net Call.getUploadUrl, Action.net (Call.uploadFile streamSize)],
            events := [], outcome := some e }
        | .ok _ =>
          { actions := [Action.net Call.getUploadUrl, Action.net (Call.uploadFile streamSize)],
            events := [⟨Resp.singleFile, 0, 1⟩], outcome := none }
    else upload_large_file env (.stream streamSize) file_size cfg_part_size

/-- Entry point `BackBlazeB2.upload` (api.py:842-866): dispatch on the argument kind; a
stream with `file_size == 0` raises `ValueError` eagerly (api.py:864-865),
before any network call or read of the stream. -/
def upload (env : Env) (file_or_path : FileSource) (file_size : Nat)
    (cfg_part_size : Nat) : Trace :=
  match file_or_path with
  | .path sz => upload_path env sz cfg_part_size
  | .stream sz =>
    if file_size = 0 then
      { actions := [], events := [],
        outcome := some (.valueError "File size must be specified when uploading an opened file") }
    else upload_io env sz file_size cfg_part_size

/-- The network call of an action, if it is one. -/
def Action.asCall : Action → Option Call
  | .net c => some c
  | _ => none

/-- The network calls of a trace, in order. -/
def Trace.calls (t : Trace) : List Call := t.actions.filterMap Action.asCall

/-- Number of occurrences of an action in a list of actions. -/
def countAction (a : Action) : List Action → Nat
  | [] => 0
  | b :: l => (if b = a then 1 else 0) + countAction a l

/-- Number of occurrences of a call in a list of calls. -/
def countCall (c : Call) : List Call → Nat
  | [] => 0
  | b :: l => (if b = c then 1 else 0) + countCall c l

/-- How many times the trace opens the orchestrator's file handle. -/
def Trace.opens (t : Trace) : Nat := countAction Action.openHandle t.actions

/-- How many times the trace closes the orchestrator's file handle. -/
def Trace.closes (t : Trace) : Nat := countAction Action.closeHandle t.actions

/-- An environment in which every remote call succeeds; `upload_part` for
part `n` reports `toString n` as the part's SHA-1. -/
def okEnv : Env where
  startResult := .ok "fid"
  partUrlResult := fun _ => .ok "tok"
  uploadPartResult := fun n => .ok (toString n)
  finishResult := fun _ => .ok ()
  cancelResult := .ok ()
  uploadUrlResult := .ok "uploadUrl"
  uploadFileResult := .ok ()

/-- An environment in which `upload_part` fails on part 2 and
`cancel_large_file` itself also fails; everything else succeeds. -/
def partFailEnv : Env :=
  { okEnv with
    uploadPartResult := fun n =>
      if n = 2 then .error (.responseError "part2") else .ok (toString n)
    cancelResult := .error (.responseError "cancelfail") }

/-- An environment in which `start_large_file` fails. -/
def startFailEnv : Env :=
  { okEnv with startResult := .error (.responseError "startfail") }

/-! ## Helper lemmas -/

/-- The size never exceeds `part_size` times the ceiling division the
planner computes. -/
theorem le_mul_ceil_parts (a b : Nat) (hb : 0 < b) : a ≤ b * ((a + b - 1) / b) := by
  have h := Nat.lt_mul_div_succ (a + b - 1) hb
  rw [Nat.mul_add, Nat.mul_one] at h
  generalize b * ((a + b - 1) / b) = Q at h ⊢
  omega

/-- One part fewer than the planner's count cannot cover the size. -/
theorem parts_pred_mul_lt (a b : Nat) (hb : 0 < b) (ha : 0 < a) :
    ((a + b - 1) / b - 1) * b < a := by
  have h2 : ((a + b - 1) / b) * b ≤ a + b - 1 := Nat.div_mul_le_self _ _
  have h1 : 1 ≤ (a + b - 1) / b := (Nat.one_le_div_iff hb).2 (by omega)
  generalize (a + b - 1) / b = q at h2 h1 ⊢
  obtain ⟨p, rfl⟩ : ∃ p, q = p + 1 := ⟨q - 1, by omega⟩
  simp only [Nat.add_sub_cancel]
  rw [Nat.add_mul, Nat.one_mul] at h2
  generalize p * b = Q at h2 ⊢
  omega

/-- The planner's `(a + b - 1) / b` is the rational ceiling of `a / b`. -/
theorem parts_count_eq_ceil (a b : Nat) (hb : 0 < b) :
    (a + b - 1) / b = ⌈(a : ℚ) / (b : ℚ)⌉₊ := by
  rcases Nat.eq_zero_or_pos a with rfl | ha
  · have h0 : (b - 1) / b = 0 := Nat.div_eq_of_lt (by omega)
    simp [h0]
  · have h1 : 1 ≤ (a + b - 1) / b := (Nat.one_le_div_iff hb).2 (by omega)
    have hbq : (0 : ℚ) < (b : ℚ) := by exact_mod_cast hb
    symm
    rw [Nat.ceil_eq_iff (by omega)]
    refine ⟨?_, ?_⟩
    · rw [lt_div_iff₀ hbq]
      exact_mod_cast parts_pred_mul_lt a b hb ha
    · rw [div_le_iff₀ hbq]
      have := le_mul_ceil_parts a b hb
      rw [Nat.mul_comm] at this
      exact_mod_cast this

/-- Identity `(c * ps + ps - 1) / ps = c` for positive `ps`: a size of exactly `c`
parts plans to `c` parts. -/
theorem mul_add_pred_div_self (c ps : Nat) (hps : 0 < ps) :
    (c * ps + ps - 1) / ps = c := by
  have h : c * ps + ps - 1 = (ps - 1) + ps * c := by
    rw [Nat.mul_comm c ps]
    generalize ps * c = A
    omega
  rw [h, Nat.add_mul_div_left _ _ hps, Nat.div_eq_of_lt (by omega), Nat.zero_add]

/-- Half-even rounding of `N / D` is at most `N / D + 1/2`, in integers:
`2 (D m) ≤ 2 N + D`. -/
theorem roundHalfEvenDiv_le (N D : Nat) (hD : 0 < D) :
    2 * (D * roundHalfEvenDiv N D) ≤ 2 * N + D := by
  have hdm := Nat.div_add_mod N D
  have hr : N % D < D := Nat.mod_lt _ hD
  unfold roundHalfEvenDiv
  split_ifs with h1 h2 h3 <;>
    [skip;
     rw [Nat.mul_add, Nat.mul_one];
     skip;
     rw [Nat.mul_add, Nat.mul_one]] <;>
    (generalize hA : D * (N / D) = A at *) <;>
    (generalize hR : N % D = r at *) <;>
    omega

/-- Half-even rounding of `N / D` is at least `N / D - 1/2`, in integers:
`2 N ≤ 2 (D m) + D`. -/
theorem le_roundHalfEvenDiv (N D : Nat) (hD : 0 < D) :
    2 * N ≤ 2 * (D * roundHalfEvenDiv N D) + D := by
  have hdm := Nat.div_add_mod N D
  have hr : N % D < D := Nat.mod_lt _ hD
  unfold roundHalfEvenDiv
  split_ifs with h1 h2 h3 <;>
    [skip;
     rw [Nat.mul_add, Nat.mul_one];
     skip;
     rw [Nat.mul_add, Nat.mul_one]] <;>
    (generalize hA : D * (N / D) = A at *) <;>
    (generalize hR : N % D = r at *) <;>
    omega

/-- With enough fuel, `log2Aux` computes a genuine floor logarithm. -/
theorem log2Aux_bounds (n : Nat) : ∀ fuel, n ≤ fuel →
    (n ≠ 0 → 2 ^ log2Aux fuel n ≤ n) ∧ n < 2 ^ (log2Aux fuel n + 1) := by
  induction n using Nat.strong_induction_on with
  | _ n ih =>
    intro fuel hf
    match fuel with
    | 0 =>
      have hn : n = 0 := by omega
      subst hn
      simp [log2Aux]
    | fuel + 1 =>
      by_cases h2 : n < 2
      · simp only [log2Aux, if_pos h2]
        refine ⟨fun hn => ?_, by simpa using h2⟩
        have : n = 1 := by omega
        simp [this]
      · simp only [log2Aux, if_neg h2]
        have hlt : n / 2 < n := Nat.div_lt_self (by omega) (by omega)
        have hfu : n / 2 ≤ fuel := by omega
        obtain ⟨hlo, hhi⟩ := ih (n / 2) hlt fuel hfu
        have hlo2 := hlo (by omega)
        constructor
        · intro _
          rw [Nat.pow_succ]
          calc 2 ^ log2Aux fuel (n / 2) * 2 ≤ (n / 2) * 2 :=
                Nat.mul_le_mul_right 2 hlo2
            _ ≤ n := by omega
        · rw [Nat.pow_succ]
          have : n ≤ 2 * (n / 2) + 1 := by omega
          calc n ≤ 2 * (n / 2) + 1 := this
            _ < 2 * 2 ^ (log2Aux fuel (n / 2) + 1) := by omega
            _ = 2 ^ (log2Aux fuel (n / 2) + 1) * 2 := by rw [Nat.mul_comm]

/-- `2 ^ natLog2 n ≤ n` for positive `n`. -/
theorem natLog2_le_self_pow (n : Nat) (hn : n ≠ 0) : 2 ^ natLog2 n ≤ n :=
  (log2Aux_bounds n n le_rfl).1 hn

/-- `n < 2 ^ (natLog2 n + 1)`. -/
theorem lt_pow_natLog2_succ (n : Nat) : n < 2 ^ (natLog2 n + 1) :=
  (log2Aux_bounds n n le_rfl).2

/-- For sizes up to `2 ^ 52` the float-based `ceil(a / b)` agrees with the
exact ceiling division: the grid spacing of the rounded double is at most
`1 / b` of an ulp away from crossing an integer, and below `2 ^ 52` the
half-ulp is too small to cross.  Beyond `2 ^ 52` the agreement can fail. -/
theorem pyCeilDiv_eq_ceilDiv (a b : Nat) (ha : 0 < a) (h52 : a ≤ 2 ^ 52) (hb : 0 < b) :
    pyCeilDiv a b = (a + b - 1) / b := by
  by_cases hab : a < b
  · have hr : (a + b - 1) / b = 1 := Nat.div_eq_of_lt_le (by omega) (by omega)
    rw [hr]
    simp only [pyCeilDiv, if_neg (by omega : ¬a = 0), if_pos hab]
  · have hba : b ≤ a := by omega
    have hq1 : 1 ≤ a / b := (Nat.one_le_div_iff hb).2 hba
    have h1 : 2 ^ natLog2 (a / b) ≤ a / b := natLog2_le_self_pow _ (by omega)
    have h2 : 2 ^ natLog2 (a / b) * b ≤ a := (Nat.le_div_iff_mul_le hb).1 h1
    have he52 : natLog2 (a / b) ≤ 52 := by
      have hle : 2 ^ natLog2 (a / b) ≤ 2 ^ 52 := by
        calc 2 ^ natLog2 (a / b) ≤ a / b := h1
          _ ≤ a := Nat.div_le_self a b
          _ ≤ 2 ^ 52 := h52
      exact (Nat.pow_le_pow_iff_right (by omega)).1 hle
    set e := natLog2 (a / b) with he
    set g := 2 ^ (52 - e) with hg
    have hgpos : 0 < g := Nat.pos_pow_of_pos _ (by omega)
    have hsplit : 2 ^ e * g = 2 ^ 52 := by
      rw [hg, ← Nat.pow_add]
      congr 1
      omega
    have hbg : b ≤ g := by
      have hmul : 2 ^ e * b ≤ 2 ^ e * g := by
        calc 2 ^ e * b ≤ a := h2
          _ ≤ 2 ^ 52 := h52
          _ = 2 ^ e * g := hsplit.symm
      exact Nat.le_of_mul_le_mul_left hmul (Nat.pos_pow_of_pos _ (by omega))
    obtain ⟨k, hk⟩ : ∃ k, (a + b - 1) / b = k + 1 :=
      ⟨(a + b - 1) / b - 1, by
        have := (Nat.one_le_div_iff hb).2 (by omega : b ≤ a + b - 1)
        omega⟩
    have hn1 : a ≤ b * (k + 1) := by
      have := le_mul_ceil_parts a b hb
      rwa [hk] at this
    have hn2 : k * b < a := by
      have := parts_pred_mul_lt a b hb ha
      rwa [hk, Nat.add_sub_cancel] at this
    set m := roundHalfEvenDiv (a * g) b with hm
    have hup : 2 * (b * m) ≤ 2 * (a * g) + b := roundHalfEvenDiv_le (a * g) b hb
    have hdown : 2 * (a * g) ≤ 2 * (b * m) + b := le_roundHalfEvenDiv (a * g) b hb
    have hmub : m ≤ (k + 1) * g := by
      by_contra hcon
      have h' : (k + 1) * g + 1 ≤ m := by omega
      have h'' : b * ((k + 1) * g) + b ≤ b * m := by
        have := Nat.mul_le_mul_left b h'
        rw [Nat.mul_add, Nat.mul_one] at this
        omega
      have hag : a * g ≤ b * ((k + 1) * g) := by
        calc a * g ≤ b * (k + 1) * g := Nat.mul_le_mul_right g hn1
          _ = b * ((k + 1) * g) := by rw [Nat.mul_assoc]
      generalize b * ((k + 1) * g) = Y at h'' hag
      generalize b * m = X at hup h''
      generalize a * g = Z at hup hag
      omega
    have hmlb : k * g < m := by
      by_contra hcon
      have h' : m ≤ k * g := by omega
      have h'' : b * m ≤ b * (k * g) := Nat.mul_le_mul_left b h'
      have hag : b * (k * g) + g ≤ a * g := by
        have h3 : (k * b + 1) * g ≤ a * g := Nat.mul_le_mul_right g hn2
        rw [Nat.add_mul, Nat.one_mul] at h3
        have h4 : k * b * g = b * (k * g) := by ring
        omega
      generalize b * (k * g) = Y at h'' hag
      generalize b * m = X at hdown h''
      generalize a * g = Z at hdown hag
      omega
    have hred : pyCeilDiv a b = (m + g - 1) / g := by
      simp only [pyCeilDiv, floatDivSig, if_neg (by omega : ¬a = 0), if_neg hab,
        ← he, if_pos he52, ← hg, ← hm]
    rw [hred, hk]
    have hkg : (k + 1) * g = k * g + g := by rw [Nat.add_mul, Nat.one_mul]
    refine Nat.div_eq_of_lt_le ?_ ?_
    · generalize k * g = K at hmlb hkg
      omega
    · have hkg2 : (k + 1 + 1) * g = k * g + g + g := by
        rw [Nat.add_mul, Nat.add_mul, Nat.one_mul]
      generalize k * g = K at hmub hkg hkg2
      omega

/-- A list of network calls embedded as actions contains no handle opens. -/
theorem countAction_open_map_net (l : List Call) :
    countAction Action.openHandle (l.map Action.net) = 0 := by
  induction l with
  | nil => rfl
  | cons c l ih => simp [countAction, ih]

/-- A list of network calls embedded as actions contains no handle closes. -/
theorem countAction_close_map_net (l : List Call) :
    countAction Action.closeHandle (l.map Action.net) = 0 := by
  induction l with
  | nil => rfl
  | cons c l ih => simp [countAction, ih]

/-- Counting distributes over list append. -/
theorem countAction_append (a : Action) (l1 l2 : List Action) :
    countAction a (l1 ++ l2) = countAction a l1 + countAction a l2 := by
  induction l1 with
  | nil => simp [countAction]
  | cons b l ih => simp [countAction, ih]; omega

/-- The canonical shape of a path-sourced orchestrator trace opens the
handle exactly once. -/
theorem count_open_shape (mid : List Call) :
    countAction Action.openHandle
      (Action.net Call.startLargeFile :: Action.openHandle ::
        (mid.map Action.net ++ [Action.closeHandle])) = 1 := by
  simp [countAction, countAction_append, countAction_open_map_net]

/-- The canonical shape of a path-sourced orchestrator trace closes the
handle exactly once. -/
theorem count_close_shape (mid : List Call) :
    countAction Action.closeHandle
      (Action.net Call.startLargeFile :: Action.openHandle ::
        (mid.map Action.net ++ [Action.closeHandle])) = 1 := by
  simp [countAction, countAction_append, countAction_close_map_net]

/-! ## Claim theorems -/

/-- Counterexample to Claim C4 as stated: at total size `5 * 2 ^ 51 + 1`
(about 11.3 PB) with the valid boundary part size `FIVE_GB`, the code's
float-based `ceil(size / part_size)` (utils.py:101) returns 2097152 —
the exact quotient `2 ^ 21 + 2 ^ -31 - ish` rounds DOWN to the double
`2097152.0`, below the exact ceiling 2097153 — and the result violates
`partCount * partSize >= size`. -/
theorem plan_float_ceil_div_cex :
    upload_parts_count (.literal (5 * 2 ^ 51 + 1)) FIVE_GB =
      .ok (5 * 2 ^ 51 + 1, 2097152, FIVE_GB) ∧
    (2097152 : Nat) ≠ ⌈((5 * 2 ^ 51 + 1 : Nat) : ℚ) / (FIVE_GB : ℚ)⌉₊ ∧
    2097152 * FIVE_GB < 5 * 2 ^ 51 + 1 := by
  refine ⟨rfl, ?_, by decide⟩
  rw [← parts_count_eq_ceil _ _ (by decide : 0 < FIVE_GB)]
  decide

/-- Claim C4 (amended): for every total size greater than 0 and at most
`2 ^ 52` (about 4.5 PB — far above the module's documented 10TB maximum,
api.py:8-9) and every configured part size within `[5MB, 5GB]`,
`upload_parts_count` returns `partCount = ceil(size / partSize)` (the
exact rational ceiling; below `2 ^ 52` the float rounding cannot cross an
integer boundary), and this result satisfies
`partCount * partSize >= size`.  For larger sizes the float-based
computation can fall one part short of the exact ceiling. -/
theorem plan_ceil_div_correct_in_range (size ps : Nat) (hsize : 0 < size)
    (hsmall : size ≤ 2 ^ 52) (h1 : FIVE_MB ≤ ps) (h2 : ps ≤ FIVE_GB) :
    upload_parts_count (.literal size) ps =
      .ok (size, ⌈(size : ℚ) / (ps : ℚ)⌉₊, ps) ∧
    size ≤ ⌈(size : ℚ) / (ps : ℚ)⌉₊ * ps := by
  have hps : 0 < ps := lt_of_lt_of_le (by decide) h1
  have hfl := pyCeilDiv_eq_ceilDiv size ps hsize hsmall hps
  have hceil := parts_count_eq_ceil size ps hps
  have hcond : ¬(ps < FIVE_MB ∨ FIVE_GB < ps) := by omega
  refine ⟨?_, ?_⟩
  · rw [hceil] at hfl
    simp only [upload_parts_count, resolve_size, if_neg hcond, hfl]
  · rw [← hceil, Nat.mul_comm]
    exact le_mul_ceil_parts size ps hps

/-- Witness for the amended C4: size 1 and part size `FIVE_MB`. -/
theorem plan_ceil_div_witness :
    (0 < 1 ∧ 1 ≤ 2 ^ 52 ∧ FIVE_MB ≤ FIVE_MB ∧ FIVE_MB ≤ FIVE_GB) ∧
    (upload_parts_count (.literal 1) FIVE_MB =
        .ok (1, ⌈(1 : ℚ) / (FIVE_MB : ℚ)⌉₊, FIVE_MB) ∧
      1 ≤ ⌈(1 : ℚ) / (FIVE_MB : ℚ)⌉₊ * FIVE_MB) :=
  ⟨⟨by decide, by decide, by decide, by decide⟩, by
    exact_mod_cast plan_ceil_div_correct_in_range 1 FIVE_MB (by decide) (by decide)
      (by decide) (by decide)⟩

/-- Counterexample to Claim C2 as stated: with the valid (default) part
size `HUNDRED_MB`, the planner applied to total size 0 returns a part
count of 0, not 1 (`ceil(0 / ps) = 0` at utils.py:101). -/
theorem plan_zero_size_not_one_cex :
    upload_parts_count (.literal 0) HUNDRED_MB = .ok (0, 0, HUNDRED_MB) ∧
    (0 : Nat) ≠ 1 := by
  refine ⟨rfl, by decide⟩

/-- Claim C2 (amended): for every valid configured part size, the part
planner applied to a source of total size 0 returns a part count of 0, so
(because `upload_path` takes the single-shot branch only when the part
count equals 1, api.py:808) a 0-byte source is routed to the multipart
path, not the single-shot path. -/
theorem plan_zero_size_part_count_zero (ps : Nat)
    (h1 : FIVE_MB ≤ ps) (h2 : ps ≤ FIVE_GB) :
    upload_parts_count (.literal 0) ps = .ok (0, 0, ps) ∧ (0 : Nat) ≠ 1 := by
  have hps : 0 < ps := lt_of_lt_of_le (by decide) h1
  have hcond : ¬(ps < FIVE_MB ∨ FIVE_GB < ps) := by omega
  have h0 : pyCeilDiv 0 ps = 0 := rfl
  refine ⟨?_, by decide⟩
  simp only [upload_parts_count, resolve_size, if_neg hcond, h0]

/-- Witness for the amended C2: part size `FIVE_MB`. -/
theorem plan_zero_size_witness :
    (FIVE_MB ≤ FIVE_MB ∧ FIVE_MB ≤ FIVE_GB) ∧
    (upload_parts_count (.literal 0) FIVE_MB = .ok (0, 0, FIVE_MB) ∧ (0 : Nat) ≠ 1) :=
  ⟨⟨by decide, by decide⟩, plan_zero_size_part_count_zero FIVE_MB (by decide) (by decide)⟩

/-- Claim C6: the planner raises `ValueError` for every configured part
size strictly below `FIVE_MB` or strictly above `FIVE_GB`, before any size
computation (the theorem holds for every size source, including a path
whose `stat` would itself fail, because the bound check at utils.py:97
precedes the size resolution at utils.py:99-100), and succeeds on the
boundary values `FIVE_MB` and `FIVE_GB` themselves. -/
theorem plan_part_size_bounds (src : SizeSource) (ps : Nat) :
    (ps < FIVE_MB ∨ FIVE_GB < ps →
      upload_parts_count src ps =
        .error (.valueError "Part size cannot be less than 5MB or more than 5GB")) ∧
    (∀ size : Nat,
      (∃ r, upload_parts_count (.literal size) FIVE_MB = .ok r) ∧
      (∃ r, upload_parts_count (.literal size) FIVE_GB = .ok r)) := by
  refine ⟨fun h => ?_, fun size => ⟨?_, ?_⟩⟩
  · simp only [upload_parts_count, if_pos h]
  · refine ⟨(size, pyCeilDiv size FIVE_MB, FIVE_MB), ?_⟩
    have hc : ¬(FIVE_MB < FIVE_MB ∨ FIVE_GB < FIVE_MB) := by decide
    simp only [upload_parts_count, resolve_size, if_neg hc]
  · refine ⟨(size, pyCeilDiv size FIVE_GB, FIVE_GB), ?_⟩
    have hc : ¬(FIVE_GB < FIVE_MB ∨ FIVE_GB < FIVE_GB) := by decide
    simp only [upload_parts_count, resolve_size, if_neg hc]

/-- Witness for C6: a part size of 0 is rejected even for a path source
whose `stat` would fail, and size 7 succeeds at the boundary `FIVE_MB`. -/
theorem plan_part_size_bounds_witness :
    upload_parts_count (.path none) 0 =
      .error (.valueError "Part size cannot be less than 5MB or more than 5GB") ∧
    (∃ r, upload_parts_count (.literal 7) FIVE_MB = .ok r) :=
  ⟨(plan_part_size_bounds (.path none) 0).1 (by decide),
    ((plan_part_size_bounds (.path none) 0).2 7).1⟩

/-- Claim C8: `upload` given an opened stream with the total size omitted
(that is, left at 0) raises `ValueError` eagerly — the trace has no network
calls, no events, and the `ValueError` outcome (api.py:864-865). -/
theorem upload_stream_requires_size (env : Env) (sz cfg : Nat) :
    upload env (.stream sz) 0 cfg =
      { actions := [], events := [],
        outcome := some (.valueError
          "File size must be specified when uploading an opened file") } := rfl

/-- Claim C10: `set_part_size` with an out-of-range value raises
`ValueError` and leaves the stored part size unchanged; with an in-range
value it stores exactly that value; the stored value starts at the 100MB
default (api.py:126, api.py:242-251). -/
theorem set_part_size_state (st size : Nat) :
    (size < FIVE_MB ∨ FIVE_GB < size →
      set_part_size st size =
        (st, some (.valueError "Part size cannot be less than 5MB or more than 5GB"))) ∧
    (FIVE_MB ≤ size → size ≤ FIVE_GB → set_part_size st size = (size, none)) ∧
    init_part_size = 100 * 1024 ^ 2 := by
  refine ⟨fun h => ?_, fun h1 h2 => ?_, rfl⟩
  · simp only [set_part_size, if_pos h]
  · simp only [set_part_size, if_neg (by omega : ¬(size < FIVE_MB ∨ FIVE_GB < size))]

/-- Witness for C10: rejecting 0 keeps the default; setting `FIVE_MB`
stores `FIVE_MB`. -/
theorem set_part_size_state_witness :
    set_part_size init_part_size 0 =
      (init_part_size, some (.valueError "Part size cannot be less than 5MB or more than 5GB")) ∧
    set_part_size init_part_size FIVE_MB = (FIVE_MB, none) :=
  ⟨(set_part_size_state init_part_size 0).1 (by decide),
    (set_part_size_state init_part_size FIVE_MB).2.1 (by decide) (by decide)⟩

/-- Claim C7: in every execution where `start_large_file` fails, the
orchestrator never calls `cancel_large_file`, and the start error is the
outcome propagated to the caller (the start call at api.py:764 precedes the
`try` block at api.py:768, so its exception bypasses the `except` handler
at api.py:778). -/
theorem start_failure_no_cancel (env : Env) (src : FileSource) (file_size cfg : Nat)
    (e : B2Error) (hstart : env.startResult = .error e) :
    (∀ fid, Call.cancelLargeFile fid ∉ (upload_large_file env src file_size cfg).calls) ∧
    (Call.startLargeFile ∈ (upload_large_file env src file_size cfg).calls →
      (upload_large_file env src file_size cfg).outcome = some e) := by
  have key : ∀ (pos : SizeSource) (cs : Nat) (ip : Bool),
      (∀ fid, Call.cancelLargeFile fid ∉ (upload_large_gen env pos cs ip cfg).calls) ∧
      (Call.startLargeFile ∈ (upload_large_gen env pos cs ip cfg).calls →
        (upload_large_gen env pos cs ip cfg).outcome = some e) := by
    intro pos cs ip
    unfold upload_large_gen
    rcases hpc : upload_parts_count pos cfg with e' | ⟨s, pc, psz⟩
    · simp [Trace.calls]
    · rw [hstart]
      simp [Trace.calls, Action.asCall]
  cases src with
  | path sz => exact key _ _ _
  | stream sz =>
    by_cases h0 : file_size = 0
    · subst h0
      simp [upload_large_file, Trace.calls]
    · simp only [upload_large_file, if_neg h0]
      exact key _ _ _

/-- Witness for C7: a failing start in `startFailEnv` with a path source. -/
theorem start_failure_no_cancel_witness :
    startFailEnv.startResult = .error (.responseError "startfail") ∧
    ((∀ fid, Call.cancelLargeFile fid ∉
        (upload_large_file startFailEnv (.path 10) 0 FIVE_MB).calls) ∧
      (Call.startLargeFile ∈ (upload_large_file startFailEnv (.path 10) 0 FIVE_MB).calls →
        (upload_large_file startFailEnv (.path 10) 0 FIVE_MB).outcome =
          some (.responseError "startfail"))) :=
  ⟨rfl, start_failure_no_cancel startFailEnv (.path 10) 0 FIVE_MB
    (.responseError "startfail") rfl⟩

/-- Claim C5: for a path source of size exactly `2 * partSize` whose
per-part calls all succeed, the orchestrator yields exactly 2 part events
followed by 1 completion event, with part numbers `[1, 2]` in order, and
the SHA-1 list passed to `finish_large_file` is `[s1, s2]`, the two parts'
digests in ascending part-number order (api.py:768-777). -/
theorem two_part_upload_event_sequence (env : Env) (ps : Nat) (fid t1 t2 s1 s2 : String)
    (hps1 : FIVE_MB ≤ ps) (hps2 : ps ≤ FIVE_GB)
    (hstart : env.startResult = .ok fid)
    (hu1 : env.partUrlResult 1 = .ok t1) (hu2 : env.partUrlResult 2 = .ok t2)
    (hp1 : env.uploadPartResult 1 = .ok s1) (hp2 : env.uploadPartResult 2 = .ok s2)
    (hfin : env.finishResult [s1, s2] = .ok ()) :
    (upload_large_file env (.path (2 * ps)) 0 ps).events =
      [⟨Resp.part s1, 1, 2⟩, ⟨Resp.part s2, 2, 2⟩, ⟨Resp.finished, 0, 2⟩] ∧
    (upload_large_file env (.path (2 * ps)) 0 ps).calls =
      [Call.startLargeFile, Call.getUploadPartUrl fid, Call.uploadPart 1 ps,
        Call.getUploadPartUrl fid, Call.uploadPart 2 ps,
        Call.finishLargeFile fid [s1, s2]] ∧
    (upload_large_file env (.path (2 * ps)) 0 ps).outcome = none := by
  have hps : 0 < ps := lt_of_lt_of_le (by decide) hps1
  have hcond : ¬(ps < FIVE_MB ∨ FIVE_GB < ps) := by omega
  have hpc : pyCeilDiv (2 * ps) ps = 2 := by
    rw [pyCeilDiv_eq_ceilDiv _ _ (by omega)
      (le_trans (by omega : 2 * ps ≤ 2 * FIVE_GB) (by decide : 2 * FIVE_GB ≤ 2 ^ 52)) hps]
    exact mul_add_pred_div_self 2 ps hps
  have hplan : upload_parts_count (.path (some (2 * ps))) ps = .ok (2 * ps, 2, ps) := by
    simp only [upload_parts_count, resolve_size, if_neg hcond, hpc]
  have hpn : partNumbers 2 = [1, 2] := rfl
  have hmin1 : min ps (2 * ps) = ps := min_eq_left (by omega)
  have hsub1 : 2 * ps - ps = ps := by omega
  refine ⟨?_, ?_, ?_⟩ <;>
    simp [upload_large_file, upload_large_gen, hplan, hstart, hpn, partLoop,
      hu1, hu2, hp1, hp2, hmin1, hsub1, min_self, Nat.sub_self, hfin,
      Trace.calls, Trace.events, Action.asCall]

/-- Witness for C5: `okEnv` with part size `FIVE_MB` and size `2 * FIVE_MB`. -/
theorem two_part_upload_witness :
    (FIVE_MB ≤ FIVE_MB ∧ FIVE_MB ≤ FIVE_GB ∧
      okEnv.startResult = .ok "fid" ∧ okEnv.partUrlResult 1 = .ok "tok" ∧
      okEnv.partUrlResult 2 = .ok "tok" ∧ okEnv.uploadPartResult 1 = .ok "1" ∧
      okEnv.uploadPartResult 2 = .ok "2" ∧ okEnv.finishResult ["1", "2"] = .ok ()) ∧
    ((upload_large_file okEnv (.path (2 * FIVE_MB)) 0 FIVE_MB).events =
        [⟨Resp.part "1", 1, 2⟩, ⟨Resp.part "2", 2, 2⟩, ⟨Resp.finished, 0, 2⟩] ∧
      (upload_large_file okEnv (.path (2 * FIVE_MB)) 0 FIVE_MB).calls =
        [Call.startLargeFile, Call.getUploadPartUrl "fid", Call.uploadPart 1 FIVE_MB,
          Call.getUploadPartUrl "fid", Call.uploadPart 2 FIVE_MB,
          Call.finishLargeFile "fid" ["1", "2"]] ∧
      (upload_large_file okEnv (.path (2 * FIVE_MB)) 0 FIVE_MB).outcome = none) :=
  ⟨⟨by decide, by decide, rfl, rfl, rfl, rfl, rfl, rfl⟩,
    two_part_upload_event_sequence okEnv FIVE_MB "fid" "tok" "tok" "1" "2"
      (by decide) (by decide) rfl rfl rfl rfl rfl rfl⟩

/-- Counterexample to Claim C1 as stated: in `partFailEnv` (`upload_part`
fails on part 2 of 3 with `responseError "part2"`, `cancel_large_file`
fails with `responseError "cancelfail"`), the error propagated to the
caller is the cancellation failure, not the original `upload_part`
failure: the cancel call's exception escapes the `except` handler at
api.py:779 before the `raise error` at api.py:780 runs.  The cancel call
is still made exactly once. -/
theorem cancel_failure_masks_original_cex :
    (upload_large_file partFailEnv (.path (3 * FIVE_MB)) 0 FIVE_MB).outcome =
      some (B2Error.responseError "cancelfail") ∧
    countCall (Call.cancelLargeFile "fid")
      (upload_large_file partFailEnv (.path (3 * FIVE_MB)) 0 FIVE_MB).calls = 1 ∧
    B2Error.responseError "cancelfail" ≠ B2Error.responseError "part2" := by
  refine ⟨rfl, rfl, by decide⟩

/-- Claim C1 (amended): if `upload_part` fails on part 2 of a 3-part
upload with a catchable (library-typed) error, the orchestrator calls
`cancel_large_file(fileId)` exactly once; when the cancellation call
succeeds the original `upload_part` error propagates to the caller, but
when the cancellation call itself fails, the cancellation error propagates
instead of the original one (the original is only attached as implicit
exception context by Python). -/
theorem upload_part_failure_cancel_once (env : Env) (ps : Nat) (fid t1 t2 s1 : String)
    (e : B2Error)
    (hps1 : FIVE_MB ≤ ps) (hps2 : ps ≤ FIVE_GB)
    (hstart : env.startResult = .ok fid)
    (hu1 : env.partUrlResult 1 = .ok t1) (hu2 : env.partUrlResult 2 = .ok t2)
    (hp1 : env.uploadPartResult 1 = .ok s1) (hp2 : env.uploadPartResult 2 = .error e)
    (hcatch : e.catchable = true) :
    countCall (Call.cancelLargeFile fid)
      (upload_large_file env (.path (3 * ps)) 0 ps).calls = 1 ∧
    (upload_large_file env (.path (3 * ps)) 0 ps).outcome =
      some (match env.cancelResult with | .ok _ => e | .error e2 => e2) := by
  have hps : 0 < ps := lt_of_lt_of_le (by decide) hps1
  have hcond : ¬(ps < FIVE_MB ∨ FIVE_GB < ps) := by omega
  have hpc : pyCeilDiv (3 * ps) ps = 3 := by
    rw [pyCeilDiv_eq_ceilDiv _ _ (by omega)
      (le_trans (by omega : 3 * ps ≤ 3 * FIVE_GB) (by decide : 3 * FIVE_GB ≤ 2 ^ 52)) hps]
    exact mul_add_pred_div_self 3 ps hps
  have hplan : upload_parts_count (.path (some (3 * ps))) ps = .ok (3 * ps, 3, ps) := by
    simp only [upload_parts_count, resolve_size, if_neg hcond, hpc]
  have hpn : partNumbers 3 = [1, 2, 3] := rfl
  have hmin1 : min ps (3 * ps) = ps := min_eq_left (by omega)
  have hsub1 : 3 * ps - ps = 2 * ps := by omega
  have hmin2 : min ps (2 * ps) = ps := min_eq_left (by omega)
  rcases hc : env.cancelResult with u | e2 <;>
    refine ⟨?_, ?_⟩ <;>
      simp [upload_large_file, upload_large_gen, hplan, hstart, hpn, partLoop,
        hu1, hu2, hp1, hp2, hmin1, hsub1, hmin2, hcatch, hc, countCall,
        Trace.calls, Trace.outcome, Action.asCall]

/-- Witness for the amended C1: `partFailEnv` with part size `FIVE_MB`. -/
theorem upload_part_failure_cancel_witness :
    (FIVE_MB ≤ FIVE_MB ∧ FIVE_MB ≤ FIVE_GB ∧
      partFailEnv.startResult = .ok "fid" ∧
      partFailEnv.partUrlResult 1 = .ok "tok" ∧ partFailEnv.partUrlResult 2 = .ok "tok" ∧
      partFailEnv.uploadPartResult 1 = .ok "1" ∧
      partFailEnv.uploadPartResult 2 = .error (.responseError "part2") ∧
      (B2Error.responseError "part2").catchable = true) ∧
    (countCall (Call.cancelLargeFile "fid")
        (upload_large_file partFailEnv (.path (3 * FIVE_MB)) 0 FIVE_MB).calls = 1 ∧
      (upload_large_file partFailEnv (.path (3 * FIVE_MB)) 0 FIVE_MB).outcome =
        some (match partFailEnv.cancelResult with
          | .ok _ => B2Error.responseError "part2"
          | .error e2 => e2)) :=
  ⟨⟨by decide, by decide, rfl, rfl, rfl, rfl, rfl, rfl⟩,
    upload_part_failure_cancel_once partFailEnv FIVE_MB "fid" "tok" "tok" "1"
      (.responseError "part2") (by decide) (by decide) rfl rfl rfl rfl rfl rfl⟩

/-- Counterexample to Claim C3 as stated: in `okEnv`, a 0-byte path source
is NOT routed to the single-shot path and its terminal event has total
part count 0, not 1.  The planner returns part count 0 for size 0, the
dispatcher's test `parts_count == 1` (api.py:808) is false, and the
multipart path runs with zero part uploads: the calls are
`start_large_file` then `finish_large_file` with an empty SHA-1 list, and
no direct `upload_file` call is made. -/
theorem dispatcher_zero_size_multipart_cex :
    (upload_path okEnv 0 FIVE_MB).events = [⟨Resp.finished, 0, 0⟩] ∧
    (upload_path okEnv 0 FIVE_MB).calls =
      [Call.startLargeFile, Call.finishLargeFile "fid" []] ∧
    (∀ ev ∈ (upload_path okEnv 0 FIVE_MB).events, ev.totalParts ≠ 1) := by
  refine ⟨rfl, rfl, ?_⟩
  intro ev hev
  simp only [show (upload_path okEnv 0 FIVE_MB).events = [⟨Resp.finished, 0, 0⟩] from rfl,
    List.mem_singleton] at hev
  subst hev
  decide

/-- Claim C3 (amended): the dispatcher, given a 0-byte path source, routes
through the multipart path, performing a start call and a finish call with
no part uploads and no direct single-shot upload, and yields exactly one
terminal event with part number 0 and total part count 0; given a source
of size 5MB + 1 byte with configured part size 5MB, it routes through the
multipart path with exactly 2 parts, of 5MB and then 1 byte
(api.py:801-814). -/
theorem dispatcher_routing (env : Env) (fid t1 t2 s1 s2 : String)
    (hstart : env.startResult = .ok fid)
    (hu1 : env.partUrlResult 1 = .ok t1) (hu2 : env.partUrlResult 2 = .ok t2)
    (hp1 : env.uploadPartResult 1 = .ok s1) (hp2 : env.uploadPartResult 2 = .ok s2)
    (hfin0 : env.finishResult [] = .ok ()) (hfin2 : env.finishResult [s1, s2] = .ok ()) :
    ((upload_path env 0 FIVE_MB).events = [⟨Resp.finished, 0, 0⟩] ∧
      (upload_path env 0 FIVE_MB).calls =
        [Call.startLargeFile, Call.finishLargeFile fid []]) ∧
    ((upload_path env (FIVE_MB + 1) FIVE_MB).calls =
        [Call.startLargeFile, Call.getUploadPartUrl fid, Call.uploadPart 1 FIVE_MB,
          Call.getUploadPartUrl fid, Call.uploadPart 2 1,
          Call.finishLargeFile fid [s1, s2]] ∧
      (upload_path env (FIVE_MB + 1) FIVE_MB).events =
        [⟨Resp.part s1, 1, 2⟩, ⟨Resp.part s2, 2, 2⟩, ⟨Resp.finished, 0, 2⟩]) := by
  have hplan0 : upload_parts_count (.path (some 0)) FIVE_MB = .ok (0, 0, FIVE_MB) := rfl
  have hplan2 : upload_parts_count (.path (some (FIVE_MB + 1))) FIVE_MB =
      .ok (FIVE_MB + 1, 2, FIVE_MB) := rfl
  have hpn0 : partNumbers 0 = [] := rfl
  have hpn2 : partNumbers 2 = [1, 2] := rfl
  have hmin1 : min FIVE_MB (FIVE_MB + 1) = FIVE_MB := by decide
  have hsub1 : FIVE_MB + 1 - FIVE_MB = 1 := by decide
  have hmin2 : min FIVE_MB 1 = 1 := by decide
  refine ⟨⟨?_, ?_⟩, ?_, ?_⟩ <;>
    simp [upload_path, upload_large_file, upload_large_gen, hplan0, hplan2,
      hstart, hpn0, hpn2, partLoop, hu1, hu2, hp1, hp2, hmin1, hsub1, hmin2,
      hfin0, hfin2, Trace.calls, Trace.events, Action.asCall,
      show (0 : Nat) ≠ 1 by decide, show (2 : Nat) ≠ 1 by decide]

/-- Witness for the amended C3: `okEnv`. -/
theorem dispatcher_routing_witness :
    (okEnv.startResult = .ok "fid" ∧ okEnv.partUrlResult 1 = .ok "tok" ∧
      okEnv.partUrlResult 2 = .ok "tok" ∧ okEnv.uploadPartResult 1 = .ok "1" ∧
      okEnv.uploadPartResult 2 = .ok "2" ∧ okEnv.finishResult [] = .ok () ∧
      okEnv.finishResult ["1", "2"] = .ok ()) ∧
    (((upload_path okEnv 0 FIVE_MB).events = [⟨Resp.finished, 0, 0⟩] ∧
        (upload_path okEnv 0 FIVE_MB).calls =
          [Call.startLargeFile, Call.finishLargeFile "fid" []]) ∧
      ((upload_path okEnv (FIVE_MB + 1) FIVE_MB).calls =
          [Call.startLargeFile, Call.getUploadPartUrl "fid", Call.uploadPart 1 FIVE_MB,
            Call.getUploadPartUrl "fid", Call.uploadPart 2 1,
            Call.finishLargeFile "fid" ["1", "2"]] ∧
        (upload_path okEnv (FIVE_MB + 1) FIVE_MB).events =
          [⟨Resp.part "1", 1, 2⟩, ⟨Resp.part "2", 2, 2⟩, ⟨Resp.finished, 0, 2⟩])) :=
  ⟨⟨rfl, rfl, rfl, rfl, rfl, rfl, rfl⟩,
    dispatcher_routing okEnv "fid" "tok" "tok" "1" "2" rfl rfl rfl rfl rfl rfl rfl⟩

/-- Shape helper: the canonical path-sourced trace ends with its close. -/
theorem exists_close_last (a : Action) (M : List Action) (x : Action) :
    ∃ pre, a :: Action.openHandle :: (M ++ [x]) = pre ++ [x] :=
  ⟨a :: Action.openHandle :: M, by simp⟩

/-- Shape helper: in the canonical path-sourced trace the open comes right
after the start call, hence before every part upload. -/
theorem exists_open_position (M : List Action) :
    ∃ pre post, Action.net Call.startLargeFile :: Action.openHandle :: M =
        pre ++ Action.openHandle :: post ∧
      ∀ n len, Action.net (Call.uploadPart n len) ∉ pre :=
  ⟨[Action.net Call.startLargeFile], M, rfl, by simp⟩

/-- Claim C9: for a path source (with a valid configured part size and a
successful start call, the conditions under which api.py:766 opens the
handle), the file handle is opened exactly once, before any part upload,
and closed exactly once, as the last action of the upload — regardless of
how the part loop, the finish call, or the cancellation call turn out
(the `finally` block at api.py:781-783 runs on every exit path); for a
stream source the orchestrator never closes the handle. -/
theorem file_handle_discipline (env : Env) (sz file_size cfg : Nat) (fid : String)
    (hcfg1 : FIVE_MB ≤ cfg) (hcfg2 : cfg ≤ FIVE_GB)
    (hstart : env.startResult = .ok fid) :
    ((upload_large_file env (.path sz) file_size cfg).opens = 1 ∧
      (upload_large_file env (.path sz) file_size cfg).closes = 1) ∧
    (∃ pre, (upload_large_file env (.path sz) file_size cfg).actions =
        pre ++ [Action.closeHandle]) ∧
    (∃ pre post, (upload_large_file env (.path sz) file_size cfg).actions =
        pre ++ Action.openHandle :: post ∧
      ∀ n len, Action.net (Call.uploadPart n len) ∉ pre) ∧
    (∀ (env' : Env) (sz' fs' cfg' : Nat),
      (upload_large_file env' (.stream sz') fs' cfg').closes = 0) := by
  have hps : 0 < cfg := lt_of_lt_of_le (by decide) hcfg1
  have hcond : ¬(cfg < FIVE_MB ∨ FIVE_GB < cfg) := by omega
  have hplan : upload_parts_count (.path (some sz)) cfg =
      .ok (sz, pyCeilDiv sz cfg, cfg) := by
    simp only [upload_parts_count, resolve_size, if_neg hcond]
  refine ⟨⟨?_, ?_⟩, ?_, ?_, ?_⟩
  · simp only [upload_large_file, upload_large_gen, hplan, hstart, Trace.opens,
      if_true, List.cons_append, List.nil_append]
    exact count_open_shape _
  · simp only [upload_large_file, upload_large_gen, hplan, hstart, Trace.closes,
      if_true, List.cons_append, List.nil_append]
    exact count_close_shape _
  · simp only [upload_large_file, upload_large_gen, hplan, hstart,
      if_true, List.cons_append, List.nil_append]
    exact exists_close_last _ _ _
  · simp only [upload_large_file, upload_large_gen, hplan, hstart,
      if_true, List.cons_append, List.nil_append]
    exact exists_open_position _
  · intro env' sz' fs' cfg'
    by_cases h0 : fs' = 0
    · subst h0
      simp [upload_large_file, Trace.closes, countAction]
    · simp only [upload_large_file, if_neg h0]
      unfold upload_large_gen
      rcases hp : upload_parts_count (.literal fs') cfg' with e' | ⟨s, pc, psz⟩
      · simp [Trace.closes, countAction]
      · rcases hs : env'.startResult with e'' | fid'
        · simp [Trace.closes, countAction]
        · simp only [Trace.closes, if_false, List.nil_append, List.append_nil,
            Bool.false_eq_true]
          simp [countAction, countAction_append, countAction_close_map_net]

/-- Witness for C9: `okEnv` with a 1-byte file and part size `FIVE_MB`. -/
theorem file_handle_discipline_witness :
    (FIVE_MB ≤ FIVE_MB ∧ FIVE_MB ≤ FIVE_GB ∧ okEnv.startResult = .ok "fid") ∧
    (((upload_large_file okEnv (.path 1) 0 FIVE_MB).opens = 1 ∧
        (upload_large_file okEnv (.path 1) 0 FIVE_MB).closes = 1) ∧
      (∃ pre, (upload_large_file okEnv (.path 1) 0 FIVE_MB).actions =
          pre ++ [Action.closeHandle]) ∧
      (∃ pre post, (upload_large_file okEnv (.path 1) 0 FIVE_MB).actions =
          pre ++ Action.openHandle :: post ∧
        ∀ n len, Action.net (Call.uploadPart n len) ∉ pre) ∧
      (∀ (env' : Env) (sz' fs' cfg' : Nat),
        (upload_large_file env' (.stream sz') fs' cfg').closes = 0)) :=
  ⟨⟨by decide, by decide, rfl⟩,
    file_handle_discipline okEnv 1 0 FIVE_MB "fid" (by decide) (by decide) rfl⟩

end Blaziken
